import Mathlib

/-!
Verification of the HIFIS-model Azure pipeline step scripts
(`src/azure/preprocess_step/preprocess_step.py` and
`src/azure/train_step/train_step.py`).

The scripts' own logic is: rewriting `PATHS` entries of a configuration
document (`dir + '/' + value.split('/')[-1]`), provisioning an output
directory (`if not os.path.exists(d): os.makedirs(d)`), a Keras callback
that counts model boundaries and forwards per-epoch metrics to a tracking
sink, and a guarded `save_model` call.  Paths are modelled as lists of
characters; Python `str.split('/')` and negative indexing are modelled
faithfully below.
-/

namespace HIFIS

/-- A path string, modelled as its list of characters. -/
abbrev Path := List Char

/-- Python `s.split('/')`: splits a string at every `'/'`, keeping empty
segments, and always returns at least one (possibly empty) segment. -/
def splitSlash : List Char → List (List Char)
  | [] => [[]]
  | c :: cs =>
    if c = '/' then [] :: splitSlash cs
    else
      match splitSlash cs with
      | [] => [[c]]
      | seg :: rest => (c :: seg) :: rest

theorem splitSlash_ne_nil : ∀ l : List Char, splitSlash l ≠ []
  | [] => by simp [splitSlash]
  | c :: cs => by
    by_cases h : c = '/'
    · simp [splitSlash, h]
    · simp only [splitSlash, if_neg h]
      cases hs : splitSlash cs with
      | nil => simp
      | cons s r => simp

theorem splitSlash_append_slash (xs ys : List Char) :
    splitSlash (xs ++ '/' :: ys) = splitSlash xs ++ splitSlash ys := by
  induction xs with
  | nil => simp [splitSlash]
  | cons c cs ih =>
    by_cases h : c = '/'
    · simp [splitSlash, h, ih]
    · simp only [List.cons_append, splitSlash, if_neg h]
      cases hs : splitSlash cs with
      | nil => exact absurd hs (splitSlash_ne_nil cs)
      | cons s r => simp [ih, hs]

theorem splitSlash_of_not_mem {l : List Char} (h : '/' ∉ l) : splitSlash l = [l] := by
  induction l with
  | nil => rfl
  | cons c cs ih =>
    have hc : c ≠ '/' := fun hc => h (hc ▸ List.mem_cons_self c cs)
    have hcs : '/' ∉ cs := fun hm => h (List.mem_cons_of_mem c hm)
    simp only [splitSlash, if_neg hc, ih hcs]

theorem not_slash_of_mem_splitSlash :
    ∀ (l : List Char) (s : List Char), s ∈ splitSlash l → '/' ∉ s
  | [], s, hs => by
    simp [splitSlash] at hs
    simp [hs]
  | c :: cs, s, hs => by
    by_cases h : c = '/'
    · simp only [splitSlash, if_pos h, List.mem_cons] at hs
      rcases hs with rfl | hs
      · simp
      · exact not_slash_of_mem_splitSlash cs s hs
    · simp only [splitSlash, if_neg h] at hs
      cases hsplit : splitSlash cs with
      | nil => exact absurd hsplit (splitSlash_ne_nil cs)
      | cons a r =>
        rw [hsplit] at hs
        rcases List.mem_cons.mp hs with rfl | hs
        · intro hmem
          rcases List.mem_cons.mp hmem with hc | hm
          · exact h hc.symm
          · exact not_slash_of_mem_splitSlash cs a (hsplit ▸ List.mem_cons_self a r) hm
        · exact not_slash_of_mem_splitSlash cs s (hsplit ▸ List.mem_cons_of_mem a hs)

/-- Python `s.split('/')[-1]`: the last segment of the split (the split is
never empty, so the `-1` index never fails; the default is unreachable). -/
def lastSeg (v : List Char) : List Char := ((splitSlash v).getLast?).getD []

theorem getLast?_getD_mem {α : Type} (d : α) :
    ∀ L : List α, L ≠ [] → (L.getLast?).getD d ∈ L
  | [a], _ => by simp
  | a :: b :: t, _ => by
    have ih := getLast?_getD_mem d (b :: t) (by simp)
    rw [List.getLast?_cons_cons]
    exact List.mem_cons_of_mem a ih

theorem lastSeg_not_slash (v : List Char) : '/' ∉ lastSeg v :=
  not_slash_of_mem_splitSlash v _ (getLast?_getD_mem [] _ (splitSlash_ne_nil v))

theorem lastSeg_of_not_mem {s : List Char} (h : '/' ∉ s) : lastSeg s = s := by
  rw [lastSeg, splitSlash_of_not_mem h]
  rfl

theorem lastSeg_append_slash (d s : List Char) : lastSeg (d ++ '/' :: s) = lastSeg s := by
  unfold lastSeg
  rw [splitSlash_append_slash, List.getLast?_append_of_ne_nil _ (splitSlash_ne_nil s)]

/-- One `PATHS` rewrite step, as written in both scripts:
`cfg['PATHS'][K] = dir + '/' + cfg['PATHS'][K].split('/')[-1]`. -/
def rewritePath (dir v : Path) : Path := dir ++ '/' :: lastSeg v

theorem lastSeg_rewritePath (d v : Path) : lastSeg (rewritePath d v) = lastSeg v := by
  rw [rewritePath, lastSeg_append_slash, lastSeg_of_not_mem (lastSeg_not_slash v)]

theorem rewritePath_idem (d v : Path) :
    rewritePath d (rewritePath d v) = rewritePath d v := by
  conv_lhs => rw [rewritePath, lastSeg_rewritePath]
  rfl

/-- The `PATHS` section of the configuration document, restricted to the
keys the two scripts read or write.  `MODEL_WEIGHTS` may be configured as
null (`Option`); every other key holds a path string. -/
structure Paths where
  RAW_DATA : Path
  RAW_SPDAT_DATA : Path
  PROCESSED_DATA : Path
  PROCESSED_OHE_DATA : Path
  TRAIN_SET : Path
  TEST_SET : Path
  GROUND_TRUTH : Path
  DATA_INFO : Path
  ORDINAL_COL_TRANSFORMER : Path
  OHE_COL_TRANSFORMER_MV : Path
  OHE_COL_TRANSFORMER_SV : Path
  SCALER_COL_TRANSFORMER : Path
  MODEL_TO_LOAD : Path
  MODEL_WEIGHTS : Option Path
  LOGS : Path
  deriving Repr, DecidableEq

/-- The preprocessing stage's configuration rewrite
(`preprocess_step.py` lines 15-25): the two raw-data keys are redirected
into `--rawdatadir`, the nine preprocessing-output keys into
`--preprocessedoutputdir`, each keeping only its original last
`'/'`-separated segment. -/
def preprocessRewrite (rawdatadir preprocessedoutputdir : Path) (c : Paths) : Paths :=
  { c with
    RAW_DATA := rewritePath rawdatadir c.RAW_DATA
    RAW_SPDAT_DATA := rewritePath rawdatadir c.RAW_SPDAT_DATA
    PROCESSED_DATA := rewritePath preprocessedoutputdir c.PROCESSED_DATA
    PROCESSED_OHE_DATA := rewritePath preprocessedoutputdir c.PROCESSED_OHE_DATA
    TRAIN_SET := rewritePath preprocessedoutputdir c.TRAIN_SET
    TEST_SET := rewritePath preprocessedoutputdir c.TEST_SET
    GROUND_TRUTH := rewritePath preprocessedoutputdir c.GROUND_TRUTH
    DATA_INFO := rewritePath preprocessedoutputdir c.DATA_INFO
    ORDINAL_COL_TRANSFORMER := rewritePath preprocessedoutputdir c.ORDINAL_COL_TRANSFORMER
    OHE_COL_TRANSFORMER_MV := rewritePath preprocessedoutputdir c.OHE_COL_TRANSFORMER_MV
    OHE_COL_TRANSFORMER_SV := rewritePath preprocessedoutputdir c.OHE_COL_TRANSFORMER_SV }

/-- The training stage's configuration rewrite (`train_step.py` lines
23-30): five input keys are redirected into `--preprocessedoutputdir`,
two output keys into `--trainoutputdir`, and `LOGS` is assigned the
`--traininglogsdir` argument wholesale
(`cfg['PATHS']['LOGS'] = args.traininglogsdir`), with no segment of its
previous value kept. -/
def trainRewrite (preprocessedoutputdir traininglogsdir trainoutputdir : Path)
    (c : Paths) : Paths :=
  { c with
    PROCESSED_DATA := rewritePath preprocessedoutputdir c.PROCESSED_DATA
    PROCESSED_OHE_DATA := rewritePath preprocessedoutputdir c.PROCESSED_OHE_DATA
    TRAIN_SET := rewritePath preprocessedoutputdir c.TRAIN_SET
    TEST_SET := rewritePath preprocessedoutputdir c.TEST_SET
    DATA_INFO := rewritePath preprocessedoutputdir c.DATA_INFO
    SCALER_COL_TRANSFORMER := rewritePath trainoutputdir c.SCALER_COL_TRANSFORMER
    MODEL_TO_LOAD := rewritePath trainoutputdir c.MODEL_TO_LOAD
    LOGS := traininglogsdir }

/-- The final step of `train_step.py` (lines 70-71): `save_model` is
called exactly when `cfg['PATHS']['MODEL_WEIGHTS'] is not None`, and its
destination argument is `cfg['PATHS']['MODEL_TO_LOAD']`.  The result is
the destination handed to the persistence sink, or `none` when the sink
is not invoked. -/
def savedModelDestination (c : Paths) : Option Path :=
  match c.MODEL_WEIGHTS with
  | none => none
  | some _ => some c.MODEL_TO_LOAD

/-- Joins segments with `'/'`: the left inverse of `splitSlash`, used to
describe the directories that `os.makedirs` creates. -/
def joinSlash : List (List Char) → List Char
  | [] => []
  | [s] => s
  | s :: rest => s ++ '/' :: joinSlash rest

theorem joinSlash_splitSlash : ∀ l : List Char, joinSlash (splitSlash l) = l
  | [] => rfl
  | c :: cs => by
    have ih := joinSlash_splitSlash cs
    by_cases h : c = '/'
    · cases hs : splitSlash cs with
      | nil => exact absurd hs (splitSlash_ne_nil cs)
      | cons s r =>
        rw [hs] at ih
        simp [splitSlash, h, hs, joinSlash, ih]
    · cases hs : splitSlash cs with
      | nil => exact absurd hs (splitSlash_ne_nil cs)
      | cons s r =>
        rw [hs] at ih
        cases r with
        | nil => simp_all [splitSlash, if_neg h, joinSlash]
        | cons t r₂ => simp_all [splitSlash, if_neg h, joinSlash]

/-- The chain of directories `os.makedirs(p)` guarantees to exist: for
each non-empty prefix of `p`'s segment list, the corresponding path.  The
last element of the chain is `p` itself. -/
def ancestorChain (p : Path) : List Path :=
  (List.range (splitSlash p).length).map (fun i => joinSlash ((splitSlash p).take (i + 1)))

theorem self_mem_ancestorChain (p : Path) : p ∈ ancestorChain p := by
  have hn : 0 < (splitSlash p).length := List.length_pos.mpr (splitSlash_ne_nil p)
  refine List.mem_map.mpr ⟨(splitSlash p).length - 1, List.mem_range.mpr (by omega), ?_⟩
  rw [Nat.sub_add_cancel hn, List.take_length, joinSlash_splitSlash]

/-- The filesystem, abstracted to the set (as a list) of directories that
exist.  `makedirs` models the documented behaviour of `os.makedirs`: it
creates the target directory together with every missing ancestor. -/
def makedirs (fs : List Path) (p : Path) : List Path :=
  fs ++ (ancestorChain p).filter (fun q => !decide (q ∈ fs))

/-- The directory-provisioning snippet shared by both scripts:
`if not os.path.exists(d): os.makedirs(d)`. -/
def provisionDir (fs : List Path) (p : Path) : List Path :=
  if p ∈ fs then fs else makedirs fs p

theorem mem_provisionDir_self (fs : List Path) (p : Path) : p ∈ provisionDir fs p := by
  by_cases h : p ∈ fs
  · simp [provisionDir, h]
  · simp only [provisionDir, if_neg h, makedirs, List.mem_append, List.mem_filter]
    exact Or.inr ⟨self_mem_ancestorChain p, by simp [h]⟩

theorem provisionDir_of_mem {fs : List Path} {p : Path} (h : p ∈ fs) :
    provisionDir fs p = fs := if_pos h

theorem mem_provisionDir_of_mem_chain {fs : List Path} {p q : Path}
    (h : p ∉ fs) (hq : q ∈ ancestorChain p) : q ∈ provisionDir fs p := by
  simp only [provisionDir, if_neg h, makedirs, List.mem_append, List.mem_filter]
  by_cases hqfs : q ∈ fs
  · exact Or.inl hqfs
  · exact Or.inr ⟨hq, by simp [hqfs]⟩

/-- One call of `LogRunMetrics.on_epoch_end` (`train_step.py` lines
44-48): if the epoch index equals 1 the model counter is incremented
first, and then every metric of the epoch log is forwarded to the run's
tracking sink as `run.log('model' + str(counter) + '_' + name, value)`.
The state is the `model_counter` field; the returned list is the sequence
of `run.log` calls made. -/
def on_epoch_end {α : Type} (model_counter : Nat) (epoch : Nat)
    (log : List (String × α)) : Nat × List (String × α) :=
  let c := if epoch = 1 then model_counter + 1 else model_counter
  (c, log.map (fun m => ("model" ++ toString c ++ "_" ++ m.1, m.2)))

/-- A sequence of `on_epoch_end` calls starting from a given counter
value, threading the mutable `model_counter` and concatenating the
`run.log` calls in order.  The callback object is constructed with
`model_counter = 0`. -/
def runEpochs {α : Type} (model_counter : Nat) :
    List (Nat × List (String × α)) → Nat × List (String × α)
  | [] => (model_counter, [])
  | (epoch, log) :: rest =>
    let step := on_epoch_end model_counter epoch log
    let tail := runEpochs step.1 rest
    (tail.1, step.2 ++ tail.2)

theorem runEpochs_counter {α : Type} (evs : List (Nat × List (String × α))) :
    ∀ c, (runEpochs c evs).1 = c + evs.countP (fun ev => ev.1 == 1) := by
  induction evs with
  | nil => intro c; simp [runEpochs]
  | cons ev rest ih =>
    intro c
    obtain ⟨e, log⟩ := ev
    simp only [runEpochs, on_epoch_end, List.countP_cons]
    rw [ih]
    by_cases h : e = 1
    · simp [h]
      omega
    · simp [h]

theorem runEpochs_no_boundary {α : Type} (c : Nat)
    (evs : List (Nat × List (String × α))) (h : ∀ ev ∈ evs, ev.1 ≠ 1) :
    runEpochs c evs =
      (c, evs.flatMap (fun ev =>
        ev.2.map (fun m => ("model" ++ toString c ++ "_" ++ m.1, m.2)))) := by
  induction evs with
  | nil => simp [runEpochs]
  | cons ev rest ih =>
    obtain ⟨e, log⟩ := ev
    have he : e ≠ 1 := h (e, log) (List.mem_cons_self _ _)
    have hr : ∀ ev ∈ rest, ev.1 ≠ 1 := fun ev hev => h ev (List.mem_cons_of_mem _ hev)
    simp [runEpochs, on_epoch_end, if_neg he, ih hr]

/-- A concrete configuration document in the shape of the repository's
`config.yml`, used for scenario theorems and counterexamples. -/
def samplePaths : Paths where
  RAW_DATA := "data/raw/HIFIS_Clients.csv".toList
  RAW_SPDAT_DATA := "data/raw/SPDAT_data.json".toList
  PROCESSED_DATA := "./data/preprocessed/processed.parquet".toList
  PROCESSED_OHE_DATA := "data/preprocessed/processed_ohe.csv".toList
  TRAIN_SET := "data/processed/train_set.csv".toList
  TEST_SET := "data/processed/test_set.csv".toList
  GROUND_TRUTH := "data/processed/ground_truth.csv".toList
  DATA_INFO := "data/interpretability/data_info.yml".toList
  ORDINAL_COL_TRANSFORMER := "data/transformers/ordinal_col_transformer.pkl".toList
  OHE_COL_TRANSFORMER_MV := "data/transformers/ohe_col_transformer_mv.pkl".toList
  OHE_COL_TRANSFORMER_SV := "data/transformers/ohe_col_transformer_sv.pkl".toList
  SCALER_COL_TRANSFORMER := "data/transformers/scaler_col_transformer.pkl".toList
  MODEL_TO_LOAD := "results/models/model.h5".toList
  MODEL_WEIGHTS := some "results/models/model_weights.h5".toList
  LOGS := "results/logs".toList

/-- A concrete `--rawdatadir` argument. -/
def dirRaw : Path := "/mnt/azureml/raw".toList

/-- A concrete `--preprocessedoutputdir` argument. -/
def dirPre : Path := "/mnt/azureml/preprocessed".toList

/-- A concrete `--traininglogsdir` argument. -/
def dirLogs : Path := "/mnt/azureml/traininglogs".toList

/-- A concrete `--trainoutputdir` argument. -/
def dirOut : Path := "/mnt/azureml/train".toList

/-- C1 counterexample: in the training stage, the rewritten `PATHS.LOGS`
is neither the target directory extended by the old file-name suffix nor
a path with the same last segment as the old value — the code assigns
`args.traininglogsdir` wholesale, so the loaded suffix `"logs"` is lost. -/
theorem trainRewrite_LOGS_suffix_counterexample :
    ¬ ((trainRewrite dirPre dirLogs dirOut samplePaths).LOGS
          = dirLogs ++ '/' :: lastSeg samplePaths.LOGS
       ∨ lastSeg ((trainRewrite dirPre dirLogs dirOut samplePaths).LOGS)
          = lastSeg samplePaths.LOGS) := by decide

/-- C1 (amended): every `PATHS` entry that a stage rewrites, except
`PATHS.LOGS` in the training stage, becomes the target directory followed
by `'/'` and the original value's last `'/'`-separated segment, and its
last segment is preserved exactly; `PATHS.LOGS` is instead replaced
wholesale by the training-logs directory argument. -/
theorem rewrite_preserves_suffix_except_LOGS (c : Paths) (raw pre tlogs tout : Path) :
    ((preprocessRewrite raw pre c).RAW_DATA = raw ++ '/' :: lastSeg c.RAW_DATA
  ∧ lastSeg (preprocessRewrite raw pre c).RAW_DATA = lastSeg c.RAW_DATA)
  ∧ ((preprocessRewrite raw pre c).RAW_SPDAT_DATA = raw ++ '/' :: lastSeg c.RAW_SPDAT_DATA
  ∧ lastSeg (preprocessRewrite raw pre c).RAW_SPDAT_DATA = lastSeg c.RAW_SPDAT_DATA)
  ∧ ((preprocessRewrite raw pre c).PROCESSED_DATA = pre ++ '/' :: lastSeg c.PROCESSED_DATA
  ∧ lastSeg (preprocessRewrite raw pre c).PROCESSED_DATA = lastSeg c.PROCESSED_DATA)
  ∧ ((preprocessRewrite raw pre c).PROCESSED_OHE_DATA
        = pre ++ '/' :: lastSeg c.PROCESSED_OHE_DATA
  ∧ lastSeg (preprocessRewrite raw pre c).PROCESSED_OHE_DATA = lastSeg c.PROCESSED_OHE_DATA)
  ∧ ((preprocessRewrite raw pre c).TRAIN_SET = pre ++ '/' :: lastSeg c.TRAIN_SET
  ∧ lastSeg (preprocessRewrite raw pre c).TRAIN_SET = lastSeg c.TRAIN_SET)
  ∧ ((preprocessRewrite raw pre c).TEST_SET = pre ++ '/' :: lastSeg c.TEST_SET
  ∧ lastSeg (preprocessRewrite raw pre c).TEST_SET = lastSeg c.TEST_SET)
  ∧ ((preprocessRewrite raw pre c).GROUND_TRUTH = pre ++ '/' :: lastSeg c.GROUND_TRUTH
  ∧ lastSeg (preprocessRewrite raw pre c).GROUND_TRUTH = lastSeg c.GROUND_TRUTH)
  ∧ ((preprocessRewrite raw pre c).DATA_INFO = pre ++ '/' :: lastSeg c.DATA_INFO
  ∧ lastSeg (preprocessRewrite raw pre c).DATA_INFO = lastSeg c.DATA_INFO)
  ∧ ((preprocessRewrite raw pre c).ORDINAL_COL_TRANSFORMER
        = pre ++ '/' :: lastSeg c.ORDINAL_COL_TRANSFORMER
  ∧ lastSeg (preprocessRewrite raw pre c).ORDINAL_COL_TRANSFORMER
        = lastSeg c.ORDINAL_COL_TRANSFORMER)
  ∧ ((preprocessRewrite raw pre c).OHE_COL_TRANSFORMER_MV
        = pre ++ '/' :: lastSeg c.OHE_COL_TRANSFORMER_MV
  ∧ lastSeg (preprocessRewrite raw pre c).OHE_COL_TRANSFORMER_MV
        = lastSeg c.OHE_COL_TRANSFORMER_MV)
  ∧ ((preprocessRewrite raw pre c).OHE_COL_TRANSFORMER_SV
        = pre ++ '/' :: lastSeg c.OHE_COL_TRANSFORMER_SV
  ∧ lastSeg (preprocessRewrite raw pre c).OHE_COL_TRANSFORMER_SV
        = lastSeg c.OHE_COL_TRANSFORMER_SV)
  ∧ ((trainRewrite pre tlogs tout c).PROCESSED_DATA = pre ++ '/' :: lastSeg c.PROCESSED_DATA
  ∧ lastSeg (trainRewrite pre tlogs tout c).PROCESSED_DATA = lastSeg c.PROCESSED_DATA)
  ∧ ((trainRewrite pre tlogs tout c).PROCESSED_OHE_DATA
        = pre ++ '/' :: lastSeg c.PROCESSED_OHE_DATA
  ∧ lastSeg (trainRewrite pre tlogs tout c).PROCESSED_OHE_DATA
        = lastSeg c.PROCESSED_OHE_DATA)
  ∧ ((trainRewrite pre tlogs tout c).TRAIN_SET = pre ++ '/' :: lastSeg c.TRAIN_SET
  ∧ lastSeg (trainRewrite pre tlogs tout c).TRAIN_SET = lastSeg c.TRAIN_SET)
  ∧ ((trainRewrite pre tlogs tout c).TEST_SET = pre ++ '/' :: lastSeg c.TEST_SET
  ∧ lastSeg (trainRewrite pre tlogs tout c).TEST_SET = lastSeg c.TEST_SET)
  ∧ ((trainRewrite pre tlogs tout c).DATA_INFO = pre ++ '/' :: lastSeg c.DATA_INFO
  ∧ lastSeg (trainRewrite pre tlogs tout c).DATA_INFO = lastSeg c.DATA_INFO)
  ∧ ((trainRewrite pre tlogs tout c).SCALER_COL_TRANSFORMER
        = tout ++ '/' :: lastSeg c.SCALER_COL_TRANSFORMER
  ∧ lastSeg (trainRewrite pre tlogs tout c).SCALER_COL_TRANSFORMER
        = lastSeg c.SCALER_COL_TRANSFORMER)
  ∧ ((trainRewrite pre tlogs tout c).MODEL_TO_LOAD = tout ++ '/' :: lastSeg c.MODEL_TO_LOAD
  ∧ lastSeg (trainRewrite pre tlogs tout c).MODEL_TO_LOAD = lastSeg c.MODEL_TO_LOAD)
  ∧ (trainRewrite pre tlogs tout c).LOGS = tlogs :=
  ⟨⟨rfl, lastSeg_rewritePath _ _⟩, ⟨rfl, lastSeg_rewritePath _ _⟩,
   ⟨rfl, lastSeg_rewritePath _ _⟩, ⟨rfl, lastSeg_rewritePath _ _⟩,
   ⟨rfl, lastSeg_rewritePath _ _⟩, ⟨rfl, lastSeg_rewritePath _ _⟩,
   ⟨rfl, lastSeg_rewritePath _ _⟩, ⟨rfl, lastSeg_rewritePath _ _⟩,
   ⟨rfl, lastSeg_rewritePath _ _⟩, ⟨rfl, lastSeg_rewritePath _ _⟩,
   ⟨rfl, lastSeg_rewritePath _ _⟩, ⟨rfl, lastSeg_rewritePath _ _⟩,
   ⟨rfl, lastSeg_rewritePath _ _⟩, ⟨rfl, lastSeg_rewritePath _ _⟩,
   ⟨rfl, lastSeg_rewritePath _ _⟩, ⟨rfl, lastSeg_rewritePath _ _⟩,
   ⟨rfl, lastSeg_rewritePath _ _⟩, ⟨rfl, lastSeg_rewritePath _ _⟩, rfl⟩

/-- C2: for any configuration and any shared `--preprocessedoutputdir`
value, the preprocessing rewrite and the training rewrite compute
identical values for each of the five shared keys `PROCESSED_DATA`,
`PROCESSED_OHE_DATA`, `TRAIN_SET`, `TEST_SET`, `DATA_INFO`. -/
theorem stages_agree_on_shared_keys (c : Paths) (raw d tlogs tout : Path) :
    (preprocessRewrite raw d c).PROCESSED_DATA = (trainRewrite d tlogs tout c).PROCESSED_DATA
  ∧ (preprocessRewrite raw d c).PROCESSED_OHE_DATA
      = (trainRewrite d tlogs tout c).PROCESSED_OHE_DATA
  ∧ (preprocessRewrite raw d c).TRAIN_SET = (trainRewrite d tlogs tout c).TRAIN_SET
  ∧ (preprocessRewrite raw d c).TEST_SET = (trainRewrite d tlogs tout c).TEST_SET
  ∧ (preprocessRewrite raw d c).DATA_INFO = (trainRewrite d tlogs tout c).DATA_INFO :=
  ⟨rfl, rfl, rfl, rfl, rfl⟩

/-- C5: both stages' rewrites are idempotent — rewriting an
already-rewritten configuration with the same directory arguments
produces an identical configuration. -/
theorem rewrite_idempotent (c : Paths) (raw pre tlogs tout : Path) :
    preprocessRewrite raw pre (preprocessRewrite raw pre c) = preprocessRewrite raw pre c
  ∧ trainRewrite pre tlogs tout (trainRewrite pre tlogs tout c)
      = trainRewrite pre tlogs tout c := by
  cases c
  exact ⟨by simp [preprocessRewrite, rewritePath_idem],
         by simp [trainRewrite, rewritePath_idem]⟩

/-- C4: after the training stage's reporting, the persistence sink is
invoked exactly when the configuration's `PATHS.MODEL_WEIGHTS` is
non-null, and when invoked its destination is `PATHS.MODEL_TO_LOAD`. -/
theorem save_model_guard (c : Paths) (pre tlogs tout : Path) :
    savedModelDestination (trainRewrite pre tlogs tout c)
      = ((trainRewrite pre tlogs tout c).MODEL_WEIGHTS).map
          (fun _ => (trainRewrite pre tlogs tout c).MODEL_TO_LOAD)
  ∧ (savedModelDestination (trainRewrite pre tlogs tout c) = none
      ↔ (trainRewrite pre tlogs tout c).MODEL_WEIGHTS = none) := by
  cases h : (trainRewrite pre tlogs tout c).MODEL_WEIGHTS <;>
    simp [savedModelDestination, h]

/-- C9: the training stage never rewrites `PATHS.MODEL_WEIGHTS` (it keeps
exactly its loaded value), while `PATHS.MODEL_TO_LOAD` is redirected
under the `--trainoutputdir` argument; hence whether a model is persisted
depends only on the static `MODEL_WEIGHTS`, and the destination depends
only on `--trainoutputdir` and the static `MODEL_TO_LOAD` file name. -/
theorem model_persistence_frame (c : Paths) (pre tlogs tout : Path) :
    (trainRewrite pre tlogs tout c).MODEL_WEIGHTS = c.MODEL_WEIGHTS
  ∧ (trainRewrite pre tlogs tout c).MODEL_TO_LOAD = rewritePath tout c.MODEL_TO_LOAD
  ∧ savedModelDestination (trainRewrite pre tlogs tout c)
      = c.MODEL_WEIGHTS.map (fun _ => rewritePath tout c.MODEL_TO_LOAD) := by
  refine ⟨rfl, rfl, ?_⟩
  cases h : c.MODEL_WEIGHTS <;> simp [savedModelDestination, trainRewrite, h]

/-- C6: directory provisioning guarantees on return that the directory
exists; when it is absent the whole ancestor chain is created, when it is
present the filesystem is unchanged, and a second invocation on the same
path leaves the state identical to the first. -/
theorem provision_directory_contract (fs : List Path) (p : Path) :
    p ∈ provisionDir fs p
  ∧ (p ∈ fs → provisionDir fs p = fs)
  ∧ (p ∉ fs → ∀ q ∈ ancestorChain p, q ∈ provisionDir fs p)
  ∧ provisionDir (provisionDir fs p) p = provisionDir fs p :=
  ⟨mem_provisionDir_self fs p,
   fun h => provisionDir_of_mem h,
   fun h _ hq => mem_provisionDir_of_mem_chain h hq,
   provisionDir_of_mem (mem_provisionDir_self fs p)⟩

/-- Witness for C6 at concrete inputs: provisioning `"/mnt/out/a"` on a
filesystem holding only `"/mnt"` creates the missing parent `"/mnt/out"`,
and provisioning the already-present `"/mnt"` changes nothing. -/
theorem provision_directory_contract_witness :
    "/mnt/out".toList ∈ provisionDir ["/mnt".toList] "/mnt/out/a".toList
  ∧ provisionDir ["/mnt".toList] "/mnt".toList = ["/mnt".toList] :=
  ⟨(provision_directory_contract ["/mnt".toList] "/mnt/out/a".toList).2.2.1
      (by decide) _ (by decide),
   (provision_directory_contract ["/mnt".toList] "/mnt".toList).2.1 (by decide)⟩

/-- C7: when a `PATHS` value contains no `'/'`, the rewrite does not fail
and yields the target directory, a separator, and the whole original
value. -/
theorem rewrite_no_separator (d v : Path) (h : '/' ∉ v) :
    rewritePath d v = d ++ '/' :: v := by
  rw [rewritePath, lastSeg_of_not_mem h]

/-- Witness for C7: rewriting the separator-free value `"file.csv"` into
`"/mnt/out"` yields `"/mnt/out/file.csv"`. -/
theorem rewrite_no_separator_witness :
    rewritePath "/mnt/out".toList "file.csv".toList = "/mnt/out/file.csv".toList :=
  (rewrite_no_separator "/mnt/out".toList "file.csv".toList (by decide)).trans (by decide)

/-- C8: with `PATHS.PROCESSED_DATA = "./data/preprocessed/processed.parquet"`
and target directory `"/mnt/output"`, both stages rewrite the
`PROCESSED_DATA` entry to exactly `"/mnt/output/processed.parquet"`. -/
theorem processed_data_rewrite_scenario :
    (preprocessRewrite dirRaw "/mnt/output".toList samplePaths).PROCESSED_DATA
        = "/mnt/output/processed.parquet".toList
  ∧ (trainRewrite "/mnt/output".toList dirLogs dirOut samplePaths).PROCESSED_DATA
        = "/mnt/output/processed.parquet".toList := by decide

/-- C3: over any sequence of `on_epoch_end` calls starting from a fresh
callback, the final model counter equals the number of calls whose epoch
index was 1; each single call increments the counter exactly when the
epoch index is 1 and forwards every metric of its log under the name
`'model' + str(counter) + '_' + name` with the counter value current at
that call; and a sequence of calls threads the counter through each call
in order while concatenating the forwarded metrics. -/
theorem callback_counter_and_forwarding (α : Type)
    (evs : List (Nat × List (String × α))) :
    (runEpochs 0 evs).1 = evs.countP (fun ev => ev.1 == 1)
  ∧ (∀ (c e : Nat) (log : List (String × α)),
      on_epoch_end c e log
        = (if e = 1 then c + 1 else c,
           log.map (fun m =>
             ("model" ++ toString (if e = 1 then c + 1 else c) ++ "_" ++ m.1, m.2))))
  ∧ (∀ (c : Nat) (ev : Nat × List (String × α))
       (rest : List (Nat × List (String × α))),
      runEpochs c (ev :: rest)
        = ((runEpochs (on_epoch_end c ev.1 ev.2).1 rest).1,
           (on_epoch_end c ev.1 ev.2).2
             ++ (runEpochs (on_epoch_end c ev.1 ev.2).1 rest).2)) := by
  refine ⟨?_, fun c e log => rfl, fun c ev rest => ?_⟩
  · simpa using runEpochs_counter evs 0
  · obtain ⟨e, log⟩ := ev
    rfl

/-- C10: for the first trained model, starting from a fresh callback, the
metrics of epoch index 0 are forwarded under the prefix `model0_` while
the metrics of every later epoch (index 1 and all indices at least 2) are
forwarded under the prefix `model1_`: a single model's metrics are split
across two counter prefixes because the counter first increments at epoch
index 1. -/
theorem first_model_metrics_split (α : Type) (l0 l1 : List (String × α))
    (rest : List (Nat × List (String × α))) (h : ∀ ev ∈ rest, 2 ≤ ev.1) :
    runEpochs 0 ((0, l0) :: (1, l1) :: rest)
      = (1, l0.map (fun m => ("model0_" ++ m.1, m.2))
            ++ (l1.map (fun m => ("model1_" ++ m.1, m.2))
            ++ rest.flatMap (fun ev => ev.2.map (fun m => ("model1_" ++ m.1, m.2))))) := by
  have hne : ∀ ev ∈ rest, ev.1 ≠ 1 := fun ev hev => by
    have := h ev hev
    omega
  have h0 : ("model" ++ toString (0 : Nat) ++ "_" : String) = "model0_" := by decide
  have h1 : ("model" ++ toString (1 : Nat) ++ "_" : String) = "model1_" := by decide
  have htail := runEpochs_no_boundary (α := α) 1 rest hne
  simp [runEpochs, on_epoch_end, htail, h0, h1]

/-- Witness for C10: a three-epoch run of a single first model splits its
metrics across the `model0_` and `model1_` prefixes. -/
theorem first_model_metrics_split_witness :
    runEpochs 0 [((0 : Nat), [("loss", (5 : Int))]), (1, [("loss", 4)]), (2, [("loss", 3)])]
      = (1, [("model0_loss", (5 : Int)), ("model1_loss", 4), ("model1_loss", 3)]) :=
  (first_model_metrics_split Int [("loss", 5)] [("loss", 4)] [(2, [("loss", 3)])]
      (by decide)).trans (by decide)

end HIFIS
